import Mathlib

/-!
# Multi-tenant OAuth credential lifecycle — shallow embedding

This development embeds the credential-store, token-manager,
callback-dispatcher, user-hash-cache and transport-selector logic of the
repository (gmail server in `part_000`/`part_001`, calendar server in
`google-calendar-mcp`) as executable Lean definitions, and proves the
spec-level claims about them.

Modelling conventions:
* JavaScript strings are modelled as `List Char` (`Str`); `toLowerCase`
  is modelled on ASCII letters (identities are hex-ish hash strings).
* JavaScript truthiness of optional strings / numbers is made explicit
  (`strTruthy`, `numTruthy`): absent, `""` and `0` are falsy.
* File contents are stored in parsed form; `JSON.parse ∘ JSON.stringify`
  is the identity on the records involved (they contain no `undefined`
  after cleaning), so serialisation is not re-modelled.
* Asynchronous I/O is modelled by explicit state passing; the outcome of
  an external HTTP exchange (token refresh, loopback forward) is an
  explicit parameter of the step function.
-/

/-- JavaScript strings, modelled as lists of characters. -/
abbrev Str := List Char

/-- Coerce a Lean string literal into the model's string type. -/
def js (s : String) : Str := s.data

/-- JS truthiness of a possibly-absent string: `undefined`/`null` and the
empty string are falsy. -/
def strTruthy : Option Str → Bool
  | some s => !s.isEmpty
  | none => false

/-- JS truthiness of a possibly-absent number: `undefined`/`null` and `0`
are falsy. -/
def numTruthy : Option Int → Bool
  | some n => n != 0
  | none => false

/-- `String.prototype.includes`: the pattern occurs as a contiguous
substring. -/
def strIncludes (s pat : Str) : Bool := decide (pat <:+: s)

/-- ASCII `toLowerCase` on one character (identities are ASCII hashes). -/
def lowerChar (c : Char) : Char :=
  if 'A' ≤ c ∧ c ≤ 'Z' then Char.ofNat (c.toNat + 32) else c

/-- ASCII `toLowerCase` on a string. -/
def lowerStr (s : Str) : Str := s.map lowerChar

/-- Association lookup on a list of key/value pairs (JS object / `Map`
read). Returns the value of the first matching key. -/
def alookup {β : Type} : List (Str × β) → Str → Option β
  | [], _ => none
  | (k, v) :: rest, key => if k = key then some v else alookup rest key

/-- `Map.prototype.set` / JS object property write: replace the value at
the first occurrence of the key in place, else append a new entry. -/
def mapSet {β : Type} : List (Str × β) → Str → β → List (Str × β)
  | [], k, v => [(k, v)]
  | (k', v') :: rest, k, v =>
      if k' = k then (k, v) :: rest else (k', v') :: mapSet rest k v

/-- `Map.prototype.delete` / JS `delete obj[k]`: remove the first entry
with the given key. -/
def eraseKey {β : Type} : List (Str × β) → Str → List (Str × β)
  | [], _ => []
  | (k', v') :: rest, k =>
      if k' = k then rest else (k', v') :: eraseKey rest k

@[simp] theorem alookup_mapSet_self {β : Type} (m : List (Str × β)) (k : Str) (v : β) :
    alookup (mapSet m k v) k = some v := by
  induction m with
  | nil => simp [mapSet, alookup]
  | cons hd tl ih =>
      obtain ⟨k', v'⟩ := hd
      by_cases h : k' = k <;> simp [mapSet, alookup, h, ih]

theorem mapSet_keys_of_mem {β : Type} {m : List (Str × β)} {k : Str} (v : β)
    (h : k ∈ m.map Prod.fst) : (mapSet m k v).map Prod.fst = m.map Prod.fst := by
  induction m with
  | nil => simp at h
  | cons hd tl ih =>
      obtain ⟨k', v'⟩ := hd
      by_cases hk : k' = k
      · subst hk; simp [mapSet]
      · have hmem : k ∈ tl.map Prod.fst := by
          rcases List.mem_cons.mp h with h1 | h1
          · exact absurd h1.symm hk
          · exact h1
        simp only [mapSet, if_neg hk, List.map_cons, ih hmem]

theorem mapSet_keys_of_not_mem {β : Type} {m : List (Str × β)} {k : Str} (v : β)
    (h : k ∉ m.map Prod.fst) :
    (mapSet m k v).map Prod.fst = m.map Prod.fst ++ [k] := by
  induction m with
  | nil => simp [mapSet]
  | cons hd tl ih =>
      obtain ⟨k', v'⟩ := hd
      by_cases hk : k' = k
      · exact absurd (hk ▸ List.mem_cons_self k' (tl.map Prod.fst)) h
      · have hmem : k ∉ tl.map Prod.fst := fun hc => h (List.mem_cons_of_mem _ hc)
        simp only [mapSet, if_neg hk, List.map_cons, ih hmem, List.cons_append]

theorem mem_mapSet_keys {β : Type} (m : List (Str × β)) (k : Str) (v : β) :
    k ∈ (mapSet m k v).map Prod.fst := by
  by_cases h : k ∈ m.map Prod.fst
  · rw [mapSet_keys_of_mem v h]; exact h
  · rw [mapSet_keys_of_not_mem v h]
    exact List.mem_append_right _ (List.mem_singleton_self k)

theorem eraseKey_sublist {β : Type} (m : List (Str × β)) (k : Str) :
    List.Sublist (eraseKey m k) m := by
  induction m with
  | nil => exact List.Sublist.refl []
  | cons hd tl ih =>
      obtain ⟨k', v'⟩ := hd
      by_cases h : k' = k
      · rw [eraseKey, if_pos h]
        exact (List.Sublist.refl tl).cons (k', v')
      · rw [eraseKey, if_neg h]
        exact List.Sublist.cons₂ (k', v') ih

-- =====================================================================
-- Fuzzy token-file matching
-- (`findCaseInsensitiveTokenFile`, identical in `part_000` and
-- `google-calendar-mcp/src/auth/callbackDispatcher.ts`)
-- =====================================================================

namespace TokenFiles

/-- The literal `"-gcp-saved-tokens"` used by the filename regex. -/
def sepStr : Str := js "-gcp-saved-tokens"

/-- The literal `"gcp-saved-tokens"` used by the `includes` filter. -/
def tokenMarker : Str := js "gcp-saved-tokens"

/-- All indices `i` of `l` at which `pat` occurs as a prefix of `l.drop i`. -/
def occurrences (l pat : Str) : List Nat :=
  (List.range (l.length + 1)).filter (fun i => decide (pat <+: l.drop i))

/-- Embedding of `fileLower.match(/^\.(.+)-gcp-saved-tokens/)` returning the
captured group: the filename must start with `.`, and the greedy `(.+)`
captures the longest nonempty run followed immediately by
`-gcp-saved-tokens`. -/
def extractFileId (file : Str) : Option Str :=
  match file with
  | [] => none
  | c :: rest =>
      if c = '.' then
        match (occurrences rest sepStr).getLast? with
        | some i => if 1 ≤ i then some (rest.take i) else none
        | none => none
      else none

/-- The matching condition of the inner loop, exactly as written in the
source: `fileId.startsWith(searchPrefix) ||
searchPrefix.startsWith(fileId.substring(0, Math.min(fileId.length,
searchPrefix.length)))`. -/
def matchCond (fileId searchPrefix : Str) : Bool :=
  searchPrefix.isPrefixOf fileId ||
    (fileId.take (min fileId.length searchPrefix.length)).isPrefixOf searchPrefix

/-- The prefix lengths tried, in order: full length, `max(6, len-4)`, 3.
(JS `len - 4` below zero and Nat truncation agree after `max 6 _`.) -/
def prefixLengths (targetLower : Str) : List Nat :=
  [targetLower.length, max 6 (targetLower.length - 4), 3]

/-- Scan one file against one search prefix: the `includes` filter (on the
original name), the id-extracting regex (on the lowercased name), then the
prefix condition. -/
def fileMatch (searchPrefix file : Str) : Option Str :=
  if strIncludes file tokenMarker then
    match extractFileId (lowerStr file) with
    | some fileId => if matchCond fileId searchPrefix then some file else none
    | none => none
  else none

/-- `findCaseInsensitiveTokenFile(userHashID)` over a directory listing:
lowercase the identity, then for each prefix length in order, return the
first listed file whose embedded id matches. Returns the matching
filename (the source returns it joined to the directory). -/
def findCaseInsensitiveTokenFile (userHashID : Str) (files : List Str) : Option Str :=
  let targetLower := lowerStr userHashID
  (prefixLengths targetLower).findSome? (fun plen =>
    files.findSome? (fileMatch (targetLower.take plen)))

/-- The claim's phrasing of the match condition: either string is a prefix
of the other (over the compared length). -/
def specMatchCond (fileId searchPrefix : Str) : Bool :=
  searchPrefix.isPrefixOf fileId || fileId.isPrefixOf searchPrefix

/-- The fuzzy scan as the claim words it, differing from the source only
in using `specMatchCond`. -/
def specFuzzyScan (userHashID : Str) (files : List Str) : Option Str :=
  let targetLower := lowerStr userHashID
  (prefixLengths targetLower).findSome? (fun plen =>
    files.findSome? (fun file =>
      if strIncludes file tokenMarker then
        match extractFileId (lowerStr file) with
        | some fileId =>
            if specMatchCond fileId (targetLower.take plen) then some file else none
        | none => none
      else none))

theorem isPrefixOf_iff {l₁ l₂ : Str} : l₁.isPrefixOf l₂ = true ↔ l₁ <+: l₂ :=
  List.isPrefixOf_iff_prefix

/-- The source's convoluted truncated-prefix test is equivalent to "one is
a prefix of the other". -/
theorem matchCond_eq_specMatchCond (fileId searchPrefix : Str) :
    matchCond fileId searchPrefix = specMatchCond fileId searchPrefix := by
  unfold matchCond specMatchCond
  rcases le_total fileId.length searchPrefix.length with h | h
  · rw [min_eq_left h, List.take_length]
  · rw [min_eq_right h, Bool.eq_iff_iff]
    simp only [Bool.or_eq_true, isPrefixOf_iff]
    constructor
    · rintro (h1 | h2)
      · exact Or.inl h1
      · have hlen : (fileId.take searchPrefix.length).length = searchPrefix.length := by
          rw [List.length_take]; exact min_eq_left h
        have heq : fileId.take searchPrefix.length = searchPrefix := h2.eq_of_length hlen
        exact Or.inl (heq ▸ List.take_prefix searchPrefix.length fileId)
    · rintro (h1 | h2)
      · exact Or.inl h1
      · have heq : fileId = searchPrefix := h2.eq_of_length (le_antisymm h2.length_le h)
        exact Or.inl (by rw [heq])

/-- Pointwise-equal scan functions give the same first result. -/
theorem findSome?_congr {α β : Type} (l : List α) (f g : α → Option β)
    (h : ∀ a, f a = g a) : l.findSome? f = l.findSome? g := by
  induction l with
  | nil => rfl
  | cons hd tl ih => rw [List.findSome?_cons, List.findSome?_cons, h hd, ih]

/-- The embedded scan equals the claim-worded scan. -/
theorem findCaseInsensitiveTokenFile_eq_spec (u : Str) (files : List Str) :
    findCaseInsensitiveTokenFile u files = specFuzzyScan u files := by
  unfold findCaseInsensitiveTokenFile specFuzzyScan
  refine findSome?_congr _ _ _ (fun plen => ?_)
  refine findSome?_congr _ _ _ (fun file => ?_)
  unfold fileMatch
  cases hm : extractFileId (lowerStr file) <;>
    by_cases hi : strIncludes file tokenMarker <;>
      simp [hi, hm, matchCond_eq_specMatchCond]

end TokenFiles

-- =====================================================================
-- Credential store (gmail `UserManager` in part_000)
-- =====================================================================

namespace CredStore

/-- `getCredentialsPath`: `.${gmailHashID}-gcp-saved-tokens.json` (the
configuration directory prefix is common to every path and omitted). -/
def exactPath (u : Str) : Str := '.' :: (u ++ js "-gcp-saved-tokens.json")

/-- The `.save`-suffixed recovery variant of the exact path. -/
def savePath (u : Str) : Str := exactPath u ++ js ".save"

/-- One JSON field value of a credential record. `jundef` models a key
present with value `undefined`. -/
inductive JField : Type
  | jnull
  | jundef
  | jstr (s : Str)
  | jnum (n : Int)
  | jbool (b : Bool)
deriving DecidableEq

/-- A credential record: an insertion-ordered JSON object. -/
abbrev Creds := List (Str × JField)

/-- A JSON field is stripped by `saveUserCredentials` when its value is
`null` or `undefined`. -/
def isNullish : JField → Bool
  | .jnull => true
  | .jundef => true
  | _ => false

/-- The `Object.entries(...).forEach` filter of `saveUserCredentials`:
keep exactly the fields whose value is neither `null` nor `undefined`. -/
def cleanCredentials (c : Creds) : Creds := c.filter (fun kv => !isNullish kv.2)

/-- The storage directory: file contents are stored in parsed form. -/
abbrev Disk := List (Str × Creds)

/-- `saveUserCredentials`: strip nullish fields and write the result to
the exact path (overwriting any previous file). -/
def saveUserCredentials (u : Str) (credentials : Creds) (disk : Disk) : Disk :=
  mapSet disk (exactPath u) (cleanCredentials credentials)

/-- `loadUserCredentials`: exact path, then the `.save` variant, then the
case-insensitive fuzzy scan over the directory listing; `none` when every
step fails (the source returns `null`). -/
def loadUserCredentials (u : Str) (disk : Disk) : Option Creds :=
  match alookup disk (exactPath u) with
  | some c => some c
  | none =>
    match alookup disk (savePath u) with
    | some c => some c
    | none =>
      match TokenFiles.findCaseInsensitiveTokenFile u (disk.map Prod.fst) with
      | some f => alookup disk f
      | none => none

end CredStore

-- =====================================================================
-- Calendar token-path resolution
-- (`getSecureTokenPathWith[Cache And]FuzzyMatching` in
-- `callbackDispatcher.ts`, consumed by `TokenManager`)
-- =====================================================================

namespace CalendarPaths

/-- The user-hash lookup cache, reduced to the data the resolvers read:
`originalUserHashID ↦ actualTokenFilename`. -/
abbrev HashCache := List (Str × Str)

/-- `getSecureTokenPathWithFuzzyMatching`: exact path if it exists, else
the fuzzy scan, else the (non-existing) exact path as a default. -/
def getSecureTokenPathWithFuzzyMatching (u : Str) (files : List Str) : Str :=
  let exact := CredStore.exactPath u
  if exact ∈ files then exact
  else
    match TokenFiles.findCaseInsensitiveTokenFile u files with
    | some f => f
    | none => exact

/-- `getSecureTokenPathWithCacheAndFuzzyMatching`: consult the lookup
cache first; a hit whose target exists wins outright, a hit whose target
is missing is purged before falling back to
`getSecureTokenPathWithFuzzyMatching`. Returns the resolved path and the
cache after the call. -/
def getSecureTokenPathWithCacheAndFuzzyMatching
    (u : Str) (files : List Str) (cache : HashCache) : Str × HashCache :=
  match alookup cache u with
  | some cachedPath =>
      if !cachedPath.isEmpty ∧ cachedPath ∈ files then (cachedPath, cache)
      else if !cachedPath.isEmpty then
        (getSecureTokenPathWithFuzzyMatching u files, eraseKey cache u)
      else (getSecureTokenPathWithFuzzyMatching u files, cache)
  | none => (getSecureTokenPathWithFuzzyMatching u files, cache)

end CalendarPaths

-- =====================================================================
-- Claims C3, C4, C5
-- =====================================================================

/-- C4: the fuzzy token-file scan lowercases the identity, tries prefix
lengths `len`, `max(6, len-4)`, `3` in order, and returns the first token
file whose embedded id and the search prefix are prefixes of one another
over the compared length; concretely, with a stored file for identity
`abcdef123456`, lookups for `abcdef123456xx` and `ABCDEF1234` resolve to
that file and a lookup for `zzzzzz` finds no match (so `load` falls
through to NotFound). -/
theorem claim_C4_fuzzy_scan :
    (∀ u files, TokenFiles.findCaseInsensitiveTokenFile u files =
        TokenFiles.specFuzzyScan u files) ∧
    CredStore.loadUserCredentials (js "abcdef123456xx")
        [(js ".abcdef123456-gcp-saved-tokens.json", [(js "access_token", .jstr (js "t"))])] =
      some [(js "access_token", .jstr (js "t"))] ∧
    CredStore.loadUserCredentials (js "ABCDEF1234")
        [(js ".abcdef123456-gcp-saved-tokens.json", [(js "access_token", .jstr (js "t"))])] =
      some [(js "access_token", .jstr (js "t"))] ∧
    CredStore.loadUserCredentials (js "zzzzzz")
        [(js ".abcdef123456-gcp-saved-tokens.json", [(js "access_token", .jstr (js "t"))])] =
      none :=
  ⟨TokenFiles.findCaseInsensitiveTokenFile_eq_spec, by decide, by decide, by decide⟩

/-- C3 counterexample: the claimed resolution order "(a) exact path first,
(c) cache only after (a) and (b)" is false for the calendar resolver —
with the exact file on disk and a cache mapping to a different existing
file, the cache mapping wins. -/
theorem claim_C3_counterexample :
    CredStore.exactPath (js "abc123") ∈
        [CredStore.exactPath (js "abc123"), js ".zzz999-gcp-saved-tokens.json"] ∧
    (CalendarPaths.getSecureTokenPathWithCacheAndFuzzyMatching (js "abc123")
        [CredStore.exactPath (js "abc123"), js ".zzz999-gcp-saved-tokens.json"]
        [(js "abc123", js ".zzz999-gcp-saved-tokens.json")]).1 =
      js ".zzz999-gcp-saved-tokens.json" ∧
    js ".zzz999-gcp-saved-tokens.json" ≠ CredStore.exactPath (js "abc123") := by
  decide

/-- C3 (amended): the gmail loader resolves (a) exact path, (b) `.save`
variant, (c) fuzzy scan, with no cache step, returning NotFound only when
all three fail; the calendar resolver consults (a) the lookup cache first
(a hit whose target exists wins outright, a stale hit is purged), then
(b) the exact path, then (c) the fuzzy scan, defaulting to the exact
path, and never consults a `.save` variant. -/
theorem claim_C3_amended :
    (∀ u disk c, alookup disk (CredStore.exactPath u) = some c →
        CredStore.loadUserCredentials u disk = some c) ∧
    (∀ u disk c, alookup disk (CredStore.exactPath u) = none →
        alookup disk (CredStore.savePath u) = some c →
        CredStore.loadUserCredentials u disk = some c) ∧
    (∀ u disk, alookup disk (CredStore.exactPath u) = none →
        alookup disk (CredStore.savePath u) = none →
        CredStore.loadUserCredentials u disk =
          (match TokenFiles.findCaseInsensitiveTokenFile u (disk.map Prod.fst) with
           | some f => alookup disk f
           | none => none)) ∧
    (∀ u files cache p, alookup cache u = some p → p.isEmpty = false → p ∈ files →
        CalendarPaths.getSecureTokenPathWithCacheAndFuzzyMatching u files cache =
          (p, cache)) ∧
    (∀ u files cache p, alookup cache u = some p → p.isEmpty = false → p ∉ files →
        CalendarPaths.getSecureTokenPathWithCacheAndFuzzyMatching u files cache =
          (CalendarPaths.getSecureTokenPathWithFuzzyMatching u files, eraseKey cache u)) ∧
    (∀ u files cache, alookup cache u = none →
        CalendarPaths.getSecureTokenPathWithCacheAndFuzzyMatching u files cache =
          (CalendarPaths.getSecureTokenPathWithFuzzyMatching u files, cache)) ∧
    (∀ u files, CredStore.exactPath u ∈ files →
        CalendarPaths.getSecureTokenPathWithFuzzyMatching u files =
          CredStore.exactPath u) ∧
    (∀ u files, CredStore.exactPath u ∉ files →
        CalendarPaths.getSecureTokenPathWithFuzzyMatching u files =
          (match TokenFiles.findCaseInsensitiveTokenFile u files with
           | some f => f
           | none => CredStore.exactPath u)) := by
  refine ⟨?_, ?_, ?_, ?_, ?_, ?_, ?_, ?_⟩
  · intro u disk c h
    unfold CredStore.loadUserCredentials
    rw [h]
  · intro u disk c h1 h2
    unfold CredStore.loadUserCredentials
    rw [h1, h2]
  · intro u disk h1 h2
    unfold CredStore.loadUserCredentials
    rw [h1, h2]
  · intro u files cache p h1 h2 h3
    unfold CalendarPaths.getSecureTokenPathWithCacheAndFuzzyMatching
    rw [h1]
    simp [h2, h3]
  · intro u files cache p h1 h2 h3
    unfold CalendarPaths.getSecureTokenPathWithCacheAndFuzzyMatching
    rw [h1]
    simp [h2, h3]
  · intro u files cache h
    unfold CalendarPaths.getSecureTokenPathWithCacheAndFuzzyMatching
    rw [h]
  · intro u files h
    unfold CalendarPaths.getSecureTokenPathWithFuzzyMatching
    simp [h]
  · intro u files h
    unfold CalendarPaths.getSecureTokenPathWithFuzzyMatching
    simp [h]

/-- Witness for C3 (amended), applying it at concrete inputs. -/
theorem claim_C3_amended_witness :
    CredStore.loadUserCredentials (js "ab")
        [(CredStore.exactPath (js "ab"), [])] = some [] ∧
    CalendarPaths.getSecureTokenPathWithCacheAndFuzzyMatching (js "ab") [] [] =
      (CalendarPaths.getSecureTokenPathWithFuzzyMatching (js "ab") [], []) :=
  ⟨claim_C3_amended.1 (js "ab") [(CredStore.exactPath (js "ab"), [])] [] (by decide),
   claim_C3_amended.2.2.2.2.2.1 (js "ab") [] [] rfl⟩

-- =====================================================================
-- Token manager (`TokenManager` in part_001)
-- =====================================================================

namespace TokenMgr

/-- The OAuth client's credential bundle (`oauth2Client.credentials`). -/
structure OAuthCreds where
  access_token : Option Str
  refresh_token : Option Str
  expiry_date : Option Int
deriving DecidableEq

/-- The expiry predicate of `refreshTokensIfNeeded`, exactly as written:
`expiryDate ? Date.now() >= expiryDate - 5 * 60 * 1000 :
!credentials.access_token` (JS truthiness on both operands). -/
def isExpired (now : Int) (c : OAuthCreds) : Bool :=
  match c.expiry_date with
  | some e =>
      if e != 0 then decide (now ≥ e - 5 * 60 * 1000) else !strTruthy c.access_token
  | none => !strTruthy c.access_token

/-- The expiry predicate as the claim words it: within the 5-minute
buffer, or no access token at all (regardless of `expiry_date`). -/
def claimIsExpired (now : Int) (c : OAuthCreds) : Bool :=
  (match c.expiry_date with
   | some e => decide (now ≥ e - 5 * 60 * 1000)
   | none => false) || !strTruthy c.access_token

/-- Token-manager state: the in-memory credentials, the resolved token
path, the on-disk token files, and the user-hash lookup cache. -/
structure TMState where
  creds : OAuthCreds
  tokenPath : Str
  files : List (Str × OAuthCreds)
  cache : List (Str × Str)
deriving DecidableEq

/-- Outcome of the provider's `refreshAccessToken` HTTP exchange. -/
inductive RefreshOutcome : Type
  | success (newTokens : OAuthCreds)
  | invalidGrant
  | otherError

/-- The `tokens`-event save handler's merge:
`{...currentTokens, ...newTokens, refresh_token: newTokens.refresh_token
|| currentTokens.refresh_token}`. -/
def spreadMerge (cur nt : OAuthCreds) : OAuthCreds :=
  { access_token := nt.access_token.orElse (fun _ => cur.access_token)
    refresh_token :=
      if strTruthy nt.refresh_token then nt.refresh_token else cur.refresh_token
    expiry_date := nt.expiry_date.orElse (fun _ => cur.expiry_date) }

/-- The `tokens` event listener (`setupTokenRefresh`): merge with the
current file if it exists, else write the new tokens alone. -/
def saveViaTokensEvent (st : TMState) (nt : OAuthCreds) : List (Str × OAuthCreds) :=
  match alookup st.files st.tokenPath with
  | some cur => mapSet st.files st.tokenPath (spreadMerge cur nt)
  | none => mapSet st.files st.tokenPath nt

/-- The `invalid_grant` cache sweep: walk the cache entries in order and
remove the first whose `actualTokenFilename` equals the token path
(`break` after the first hit). -/
def removeFirstByPath : List (Str × Str) → Str → List (Str × Str)
  | [], _ => []
  | (k, v) :: rest, p =>
      if v = p then rest else (k, v) :: removeFirstByPath rest p

/-- `refreshTokensIfNeeded`, with the provider exchange outcome passed in
explicitly. Returns the boolean result and the state after the call. On
`invalid_grant` only the cache entry is removed — no file is deleted. -/
def refreshTokensIfNeeded (now : Int) (st : TMState) (outcome : RefreshOutcome) :
    Bool × TMState :=
  if isExpired now st.creds && strTruthy st.creds.refresh_token then
    match outcome with
    | .success nt =>
        if !strTruthy nt.access_token then (false, st)
        else (true, { st with creds := nt, files := saveViaTokensEvent st nt })
    | .invalidGrant =>
        (false, { st with cache := removeFirstByPath st.cache st.tokenPath })
    | .otherError => (false, st)
  else if !strTruthy st.creds.access_token && !strTruthy st.creds.refresh_token then
    (false, st)
  else (true, st)

/-- Field values kept by `JSON.stringify` on a flat object: keys with
value `undefined` are dropped, keys with value `null` are kept. -/
def keptByStringify : CredStore.JField → Bool
  | .jundef => false
  | _ => true

/-- The persistence of `saveTokens` (part_001:308-328): write
`JSON.stringify(tokens, null, 2)` to the token path — no field stripping
beyond what `JSON.stringify` itself does, so `null` fields are
persisted. (The `setCredentials` call and the optional lookup-cache
`addEntry` do not touch the written record and are modelled elsewhere.) -/
def saveTokens (tokenPath : Str) (tokens : CredStore.Creds) (disk : CredStore.Disk) :
    CredStore.Disk :=
  mapSet disk tokenPath (tokens.filter (fun kv => keptByStringify kv.2))

end TokenMgr

-- =====================================================================
-- Claims C2, C5, C6
-- =====================================================================

/-- C5 counterexample: the calendar `saveTokens` persists
`JSON.stringify(tokens)`, which keeps `null` fields — saving a record
with `refresh_token: null` and loading it back (through the fuzzy path
resolver) returns the record WITH the null field, not the record minus
its null fields, so "save strips the null/undefined fields before
persisting" fails for this cited implementation. -/
theorem claim_C5_counterexample :
    alookup
        (TokenMgr.saveTokens (CredStore.exactPath (js "u1"))
          [(js "access_token", CredStore.JField.jstr (js "a")),
           (js "refresh_token", CredStore.JField.jnull)] [])
        (CalendarPaths.getSecureTokenPathWithFuzzyMatching (js "u1")
          ((TokenMgr.saveTokens (CredStore.exactPath (js "u1"))
            [(js "access_token", CredStore.JField.jstr (js "a")),
             (js "refresh_token", CredStore.JField.jnull)] []).map Prod.fst)) =
      some [(js "access_token", CredStore.JField.jstr (js "a")),
            (js "refresh_token", CredStore.JField.jnull)] ∧
    CredStore.cleanCredentials
        [(js "access_token", CredStore.JField.jstr (js "a")),
         (js "refresh_token", CredStore.JField.jnull)] =
      [(js "access_token", CredStore.JField.jstr (js "a"))] ∧
    ([(js "access_token", CredStore.JField.jstr (js "a")),
      (js "refresh_token", CredStore.JField.jnull)] : CredStore.Creds) ≠
      [(js "access_token", CredStore.JField.jstr (js "a"))] := by
  decide

/-- C5 (amended): the two cited save implementations persist differently.
The gmail `saveUserCredentials` strips both `null` and `undefined` fields
before writing, so its round trip returns the record minus all
null/undefined fields; the calendar `saveTokens` writes
`JSON.stringify(tokens)`, which drops only `undefined`-valued fields and
keeps `null` fields, so its round trip (direct, and through the fuzzy
path resolver) returns the record minus only the undefined fields. -/
theorem claim_C5_amended :
    (∀ u t disk,
        CredStore.loadUserCredentials u (CredStore.saveUserCredentials u t disk) =
          some (CredStore.cleanCredentials t)) ∧
    (∀ path t disk,
        alookup (TokenMgr.saveTokens path t disk) path =
          some (t.filter (fun kv => TokenMgr.keptByStringify kv.2))) ∧
    (∀ u t disk,
        alookup (TokenMgr.saveTokens (CredStore.exactPath u) t disk)
          (CalendarPaths.getSecureTokenPathWithFuzzyMatching u
            ((TokenMgr.saveTokens (CredStore.exactPath u) t disk).map Prod.fst)) =
          some (t.filter (fun kv => TokenMgr.keptByStringify kv.2))) := by
  refine ⟨?_, ?_, ?_⟩
  · intro u t disk
    unfold CredStore.loadUserCredentials CredStore.saveUserCredentials
    rw [alookup_mapSet_self]
  · intro path t disk
    unfold TokenMgr.saveTokens
    rw [alookup_mapSet_self]
  · intro u t disk
    have hmem : CredStore.exactPath u ∈
        (TokenMgr.saveTokens (CredStore.exactPath u) t disk).map Prod.fst := by
      unfold TokenMgr.saveTokens
      exact mem_mapSet_keys _ _ _
    simp only [CalendarPaths.getSecureTokenPathWithFuzzyMatching]
    rw [if_pos hmem]
    unfold TokenMgr.saveTokens
    rw [alookup_mapSet_self]

/-- C6 counterexample: a record with no access token but a far-future
`expiry_date` is NOT treated as expired by the code, while the claim's
predicate ("no access token present at all" ⇒ expired regardless of
`expiry_date`) says it is. -/
theorem claim_C6_counterexample :
    TokenMgr.isExpired 0
        { access_token := none, refresh_token := some (js "rt"),
          expiry_date := some 1000000000 } = false ∧
    TokenMgr.claimIsExpired 0
        { access_token := none, refresh_token := some (js "rt"),
          expiry_date := some 1000000000 } = true := by
  decide

/-- C6 (amended): a record is treated as expired exactly when it has a
truthy (present, nonzero) `expiry_date` within the 5-minute buffer of
now, or when it has a falsy `expiry_date` and a falsy access token; the
access-token check is reached only when `expiry_date` is falsy. -/
theorem claim_C6_amended (now : Int) (c : TokenMgr.OAuthCreds) :
    TokenMgr.isExpired now c = true ↔
      ((∃ e, c.expiry_date = some e ∧ e ≠ 0 ∧ now ≥ e - 5 * 60 * 1000) ∨
        ((c.expiry_date = none ∨ c.expiry_date = some 0) ∧
          strTruthy c.access_token = false)) := by
  unfold TokenMgr.isExpired
  cases hc : c.expiry_date with
  | none => simp [hc]
  | some e =>
      by_cases he : e = 0
      · subst he; simp
      · simp [he, hc]

/-- C2 counterexample: with identity `abc123` stored on disk and mapped in
the lookup cache, an `invalid_grant` refresh removes the cache mapping but
leaves the credential file on disk, so a subsequent load still resolves
and returns the record — contradicting "load(U) returns NotFound". -/
theorem claim_C2_counterexample :
    (TokenMgr.refreshTokensIfNeeded 1000000000
        { creds := { access_token := some (js "at"), refresh_token := some (js "rt"),
                     expiry_date := some 1000 }
          tokenPath := CredStore.exactPath (js "abc123")
          files := [(CredStore.exactPath (js "abc123"),
                     { access_token := some (js "at"), refresh_token := some (js "rt"),
                       expiry_date := some 1000 })]
          cache := [(js "abc123", CredStore.exactPath (js "abc123"))] }
        .invalidGrant).1 = false ∧
    (TokenMgr.refreshTokensIfNeeded 1000000000
        { creds := { access_token := some (js "at"), refresh_token := some (js "rt"),
                     expiry_date := some 1000 }
          tokenPath := CredStore.exactPath (js "abc123")
          files := [(CredStore.exactPath (js "abc123"),
                     { access_token := some (js "at"), refresh_token := some (js "rt"),
                       expiry_date := some 1000 })]
          cache := [(js "abc123", CredStore.exactPath (js "abc123"))] }
        .invalidGrant).2.cache = [] ∧
    alookup
        (TokenMgr.refreshTokensIfNeeded 1000000000
            { creds := { access_token := some (js "at"), refresh_token := some (js "rt"),
                         expiry_date := some 1000 }
              tokenPath := CredStore.exactPath (js "abc123")
              files := [(CredStore.exactPath (js "abc123"),
                         { access_token := some (js "at"), refresh_token := some (js "rt"),
                           expiry_date := some 1000 })]
              cache := [(js "abc123", CredStore.exactPath (js "abc123"))] }
            .invalidGrant).2.files
        (CalendarPaths.getSecureTokenPathWithFuzzyMatching (js "abc123")
          ((TokenMgr.refreshTokensIfNeeded 1000000000
              { creds := { access_token := some (js "at"), refresh_token := some (js "rt"),
                           expiry_date := some 1000 }
                tokenPath := CredStore.exactPath (js "abc123")
                files := [(CredStore.exactPath (js "abc123"),
                           { access_token := some (js "at"), refresh_token := some (js "rt"),
                             expiry_date := some 1000 })]
                cache := [(js "abc123", CredStore.exactPath (js "abc123"))] }
              .invalidGrant).2.files.map Prod.fst)) =
      some { access_token := some (js "at"), refresh_token := some (js "rt"),
             expiry_date := some 1000 } := by
  decide

/-- C2 (amended): on an `invalid_grant` refresh response for an expired
record with a refresh token, `refreshTokensIfNeeded` returns `false` and
removes the first lookup-cache entry pointing at the token path, but the
on-disk credential files are left unchanged — the record is NOT deleted,
so a subsequent load still finds it. -/
theorem claim_C2_amended (now : Int) (st : TokenMgr.TMState)
    (h1 : TokenMgr.isExpired now st.creds = true)
    (h2 : strTruthy st.creds.refresh_token = true) :
    TokenMgr.refreshTokensIfNeeded now st .invalidGrant =
      (false, { st with cache := TokenMgr.removeFirstByPath st.cache st.tokenPath }) ∧
    (TokenMgr.refreshTokensIfNeeded now st .invalidGrant).2.files = st.files := by
  unfold TokenMgr.refreshTokensIfNeeded
  rw [h1, h2]
  simp

/-- Witness for C2 (amended) at a concrete expired state. -/
theorem claim_C2_amended_witness :
    TokenMgr.refreshTokensIfNeeded 1000000
        { creds := { access_token := none, refresh_token := some (js "rt"),
                     expiry_date := some 500 }
          tokenPath := js "p", files := [], cache := [(js "u", js "p")] }
        .invalidGrant =
      (false,
        { creds := { access_token := none, refresh_token := some (js "rt"),
                     expiry_date := some 500 }
          tokenPath := js "p", files := [], cache := [] }) :=
  ((claim_C2_amended 1000000
      { creds := { access_token := none, refresh_token := some (js "rt"),
                   expiry_date := some 500 }
        tokenPath := js "p", files := [], cache := [(js "u", js "p")] }
      (by decide) (by decide)).1).trans (by decide)

-- =====================================================================
-- Callback dispatcher / routing table (`CallbackDispatcher` in
-- `callbackDispatcher.ts`) and the gmail per-user auth callback
-- (`UserManager.authenticateUser` in part_000)
-- =====================================================================

/-- Parsed form of a callback's `state` query parameter: absent (or empty,
both falsy), present but unparsable JSON, or a parsed object whose
`userID` field may be missing. -/
inductive StateParam : Type
  | absent
  | malformed
  | obj (userID : Option Str)
deriving DecidableEq

namespace Dispatcher

/-- One routing-table entry (`AuthServerInfo`, minus the redundant
`userID` copy which is the key). -/
structure AuthServerInfo where
  port : Int
  timestamp : Int
deriving DecidableEq

/-- The `activeServers` map: user identity to registered auth server. -/
abbrev RoutingTable := List (Str × AuthServerInfo)

/-- Outcome of the loopback `fetch` to the registered auth server. -/
inductive Downstream : Type
  | response (status : Nat) (body : Str)
  | failed
deriving DecidableEq

/-- The response sent back by the `/oauth2callback` route. -/
inductive DispatchResult : Type
  | missingState
  | invalidState
  | noSession
  | relayed (status : Nat) (body : Str)
  | relayError (status : Nat)
  | internalError
deriving DecidableEq

/-- `Response.ok` of the `fetch` API: status in the 2xx range. -/
def respOk (status : Nat) : Bool := decide (200 ≤ status ∧ status < 300)

/-- The `/oauth2callback` handler: validate `state`, look up the
registered auth server, forward, relay the downstream response, and
delete the registration only after a downstream `ok` response. A parsed
state without a `userID` field looks up `undefined`, which never matches
a registered (string) key. -/
def oauthCallback (table : RoutingTable) (state : StateParam) (down : Downstream) :
    DispatchResult × RoutingTable :=
  match state with
  | .absent => (.missingState, table)
  | .malformed => (.invalidState, table)
  | .obj uidOpt =>
    match uidOpt with
    | none => (.noSession, table)
    | some uid =>
      match alookup table uid with
      | none => (.noSession, table)
      | some _ =>
        match down with
        | .response status body =>
            if respOk status then (.relayed status body, eraseKey table uid)
            else (.relayError status, table)
        | .failed => (.internalError, table)

/-- The `/register-auth-server` handler: reject falsy `userID`/`port`
with a 400 (table unchanged), else `Map.set` the entry, superseding any
existing registration for that identity. -/
def registerAuthServer (now : Int) (table : RoutingTable)
    (userID : Option Str) (port : Option Int) : RoutingTable :=
  if !strTruthy userID || !numTruthy port then table
  else mapSet table (userID.getD []) { port := port.getD 0, timestamp := now }

/-- The `/unregister-auth-server` handler. -/
def unregisterAuthServer (table : RoutingTable) (userID : Option Str) : RoutingTable :=
  if !strTruthy userID then table
  else eraseKey table (userID.getD [])

/-- The periodic stale-entry sweep: drop entries older than 30 minutes. -/
def sweep (now : Int) (table : RoutingTable) : RoutingTable :=
  table.filter (fun kv => !decide (now - kv.2.timestamp > 30 * 60 * 1000))

/-- Routing-table states reachable from the empty table through the
dispatcher's operations. -/
inductive Reachable : RoutingTable → Prop
  | empty : Reachable []
  | register (now : Int) (uid : Option Str) (port : Option Int) {t : RoutingTable} :
      Reachable t → Reachable (registerAuthServer now t uid port)
  | unregister (uid : Option Str) {t : RoutingTable} :
      Reachable t → Reachable (unregisterAuthServer t uid)
  | callback (st : StateParam) (down : Downstream) {t : RoutingTable} :
      Reachable t → Reachable (oauthCallback t st down).2
  | sweepStep (now : Int) {t : RoutingTable} :
      Reachable t → Reachable (sweep now t)

end Dispatcher

theorem mapSet_keys_nodup {β : Type} {m : List (Str × β)} (k : Str) (v : β)
    (h : (m.map Prod.fst).Nodup) : ((mapSet m k v).map Prod.fst).Nodup := by
  by_cases hm : k ∈ m.map Prod.fst
  · rw [mapSet_keys_of_mem v hm]; exact h
  · rw [mapSet_keys_of_not_mem v hm]
    refine List.Nodup.append h (List.nodup_singleton k) ?_
    intro x hx hk
    rw [List.mem_singleton] at hk
    exact hm (hk ▸ hx)

theorem eraseKey_keys_nodup {β : Type} {m : List (Str × β)} (k : Str)
    (h : (m.map Prod.fst).Nodup) : ((eraseKey m k).map Prod.fst).Nodup :=
  ((eraseKey_sublist m k).map Prod.fst).nodup h

theorem oauthCallback_table_cases (t : Dispatcher.RoutingTable) (st : StateParam)
    (down : Dispatcher.Downstream) :
    (Dispatcher.oauthCallback t st down).2 = t ∨
      ∃ uid, (Dispatcher.oauthCallback t st down).2 = eraseKey t uid := by
  unfold Dispatcher.oauthCallback
  rcases st with _ | _ | uidOpt
  · exact Or.inl rfl
  · exact Or.inl rfl
  · rcases uidOpt with _ | uid
    · exact Or.inl rfl
    · rcases hl : alookup t uid with _ | info
      · left; simp [hl]
      · rcases down with ⟨status, body⟩ | _
        · by_cases hok : Dispatcher.respOk status = true
          · right; exact ⟨uid, by simp [hl, hok]⟩
          · left; simp [hl, hok]
        · left; simp [hl]

theorem dispatcher_table_nodup :
    ∀ t, Dispatcher.Reachable t → (t.map Prod.fst).Nodup := by
  intro t h
  induction h with
  | empty => exact List.nodup_nil
  | register now uid port _ ih =>
      unfold Dispatcher.registerAuthServer
      by_cases hg : (!strTruthy uid || !numTruthy port) = true
      · rw [if_pos hg]; exact ih
      · rw [if_neg hg]; exact mapSet_keys_nodup _ _ ih
  | unregister uid _ ih =>
      unfold Dispatcher.unregisterAuthServer
      by_cases hg : (!strTruthy uid) = true
      · rw [if_pos hg]; exact ih
      · rw [if_neg hg]; exact eraseKey_keys_nodup _ ih
  | callback st down _ ih =>
      rcases oauthCallback_table_cases _ st down with hcase | ⟨uid, hcase⟩
      · rw [hcase]; exact ih
      · rw [hcase]; exact eraseKey_keys_nodup _ ih
  | sweepStep now _ ih =>
      exact ((List.filter_sublist _).map Prod.fst).nodup ih

-- =====================================================================
-- Claims C7, C9
-- =====================================================================

theorem countKey_eq_one {l : List Str} {u : Str} (hnd : l.Nodup) (hm : u ∈ l) :
    l.countP (fun k => decide (k = u)) = 1 := by
  induction l with
  | nil => simp at hm
  | cons a tl ih =>
      rcases List.mem_cons.mp hm with h1 | h1
      · subst h1
        have hnotin : u ∉ tl := (List.nodup_cons.mp hnd).1
        have hz : List.countP (fun k => decide (k = u)) tl = 0 :=
          List.countP_eq_zero.mpr (fun x hx => by
            simp only [decide_eq_true_eq]
            exact fun he => hnotin (he ▸ hx))
        simp [List.countP_cons, hz]
      · have hna : a ∉ tl := (List.nodup_cons.mp hnd).1
        have hne : ¬ (a = u) := fun he => hna (he ▸ h1)
        have hc := ih (List.nodup_cons.mp hnd).2 h1
        simp [List.countP_cons, hne, hc]

/-- C7: in every reachable routing-table state the identities are
pairwise distinct (at most one registration per identity), and a
register request for an identity — already registered or not — leaves
exactly one entry for it, by `Map.set` replacement rather than by adding
a second one. -/
theorem claim_C7_single_registration :
    ∀ t, Dispatcher.Reachable t →
      (t.map Prod.fst).Nodup ∧
      ∀ now u p,
        ((Dispatcher.registerAuthServer now t (some u) (some p)).map Prod.fst).Nodup ∧
        (u ≠ [] → p ≠ 0 →
          Dispatcher.registerAuthServer now t (some u) (some p) =
            mapSet t u { port := p, timestamp := now } ∧
          List.countP (fun k => decide (k = u))
              ((Dispatcher.registerAuthServer now t (some u) (some p)).map Prod.fst) = 1) := by
  intro t h
  have hnd := dispatcher_table_nodup t h
  refine ⟨hnd, ?_⟩
  intro now u p
  constructor
  · unfold Dispatcher.registerAuthServer
    by_cases hg : (!strTruthy (some u) || !numTruthy (some p)) = true
    · rw [if_pos hg]; exact hnd
    · rw [if_neg hg]; exact mapSet_keys_nodup _ _ hnd
  · intro hu hp
    have hreg : Dispatcher.registerAuthServer now t (some u) (some p) =
        mapSet t u { port := p, timestamp := now } := by
      unfold Dispatcher.registerAuthServer
      have hs : strTruthy (some u) = true := by
        simp [strTruthy, List.isEmpty_iff, hu]
      have hn : numTruthy (some p) = true := by
        simp [numTruthy, hp]
      rw [hs, hn]
      simp
    refine ⟨hreg, ?_⟩
    rw [hreg]
    by_cases hm : u ∈ t.map Prod.fst
    · rw [mapSet_keys_of_mem _ hm]
      exact countKey_eq_one hnd hm
    · rw [mapSet_keys_of_not_mem _ hm]
      rw [List.countP_append]
      rw [List.countP_eq_zero.mpr (fun x hx => by
        simp only [decide_eq_true_eq]
        exact fun he => hm (he ▸ hx))]
      simp

/-- Witness for C7: superseding a live registration for `u1` leaves a
duplicate-free table with exactly one entry for `u1`. -/
theorem claim_C7_single_registration_witness :
    ((Dispatcher.registerAuthServer 5
        (Dispatcher.registerAuthServer 0 [] (some (js "u1")) (some 3101))
        (some (js "u1")) (some 3102)).map Prod.fst).Nodup ∧
    List.countP (fun k => decide (k = js "u1"))
        ((Dispatcher.registerAuthServer 5
            (Dispatcher.registerAuthServer 0 [] (some (js "u1")) (some 3101))
            (some (js "u1")) (some 3102)).map Prod.fst) = 1 :=
  let h := claim_C7_single_registration
    (Dispatcher.registerAuthServer 0 [] (some (js "u1")) (some 3101))
    (Dispatcher.Reachable.register 0 (some (js "u1")) (some 3101)
      Dispatcher.Reachable.empty)
  ⟨(h.2 5 (js "u1") 3102).1,
   ((h.2 5 (js "u1") 3102).2 (by decide) (by decide)).2⟩

/-- C9: a routing-table entry is deleted only by a forwarded callback
whose downstream response is 2xx; a non-2xx downstream response or a
failed loopback request sends an error but leaves the registration in
place. -/
theorem claim_C9_delete_only_on_success (table : Dispatcher.RoutingTable) (uid : Str)
    (info : Dispatcher.AuthServerInfo) (h : alookup table uid = some info) :
    (∀ st down, (Dispatcher.oauthCallback table st down).2 = table ∨
        ∃ u s b, st = .obj (some u) ∧ down = .response s b ∧
          Dispatcher.respOk s = true ∧
          (Dispatcher.oauthCallback table st down).2 = eraseKey table u) ∧
    (∀ status body, Dispatcher.respOk status = true →
        Dispatcher.oauthCallback table (.obj (some uid)) (.response status body) =
          (.relayed status body, eraseKey table uid)) ∧
    (∀ status body, Dispatcher.respOk status = false →
        Dispatcher.oauthCallback table (.obj (some uid)) (.response status body) =
          (.relayError status, table)) ∧
    Dispatcher.oauthCallback table (.obj (some uid)) .failed =
      (.internalError, table) := by
  refine ⟨?_, ?_, ?_, ?_⟩
  · intro st down
    unfold Dispatcher.oauthCallback
    rcases st with _ | _ | uidOpt
    · exact Or.inl rfl
    · exact Or.inl rfl
    · rcases uidOpt with _ | u
      · exact Or.inl rfl
      · rcases hl : alookup table u with _ | info'
        · left; simp [hl]
        · rcases down with ⟨status, body⟩ | _
          · by_cases hok : Dispatcher.respOk status = true
            · right; exact ⟨u, status, body, rfl, rfl, hok, by simp [hl, hok]⟩
            · left; simp [hl, hok]
          · left; simp [hl]
  · intro status body hok
    simp [Dispatcher.oauthCallback, h, hok]
  · intro status body hok
    simp [Dispatcher.oauthCallback, h, hok]
  · simp [Dispatcher.oauthCallback, h]

/-- Witness for C9 at a one-entry table: a 500 downstream keeps the
registration, a 200 downstream removes it. -/
theorem claim_C9_delete_only_on_success_witness :
    Dispatcher.oauthCallback [(js "u1", ⟨3101, 0⟩)] (.obj (some (js "u1")))
        (.response 500 (js "err")) =
      (.relayError 500, [(js "u1", ⟨3101, 0⟩)]) ∧
    Dispatcher.oauthCallback [(js "u1", ⟨3101, 0⟩)] (.obj (some (js "u1")))
        (.response 200 (js "ok")) =
      (.relayed 200 (js "ok"), []) :=
  let h := claim_C9_delete_only_on_success [(js "u1", ⟨3101, 0⟩)] (js "u1") ⟨3101, 0⟩
    (by decide)
  ⟨(h.2.2.1 500 (js "err") (by decide)),
   ((h.2.1 200 (js "ok") (by decide)).trans (by decide))⟩

-- =====================================================================
-- Gmail per-user auth callback (`UserManager.authenticateUser`,
-- part_000 lines 1041-1104) and claim C1
-- =====================================================================

namespace GmailAuth

/-- The terminal behaviour of the per-user `/oauth2callback` handler:
either one of the error pages (each a 400 with its own body, with the
pending promise rejected), or the code exchange followed by
`saveUserCredentials` under the given identity. -/
inductive CallbackResult : Type
  | oauthErrorPage (e : Str)
  | noCodePage
  | invalidStatePage
  | exchanged (identity : Str)
deriving DecidableEq

/-- The handler body after the 404 path check: `error` truthy rejects;
missing `code` rejects; a truthy `state` is parsed and its `userID`
compared (`!==`) against the flow's identity, rejecting on parse failure
or mismatch; a falsy `state` skips validation. Only the `.exchanged`
outcome exchanges the code and saves tokens, always under the flow's own
identity. -/
def authCallback (gmailHashID : Str) (code error : Option Str) (state : StateParam) :
    CallbackResult :=
  if strTruthy error then .oauthErrorPage (error.getD [])
  else if !strTruthy code then .noCodePage
  else
    match state with
    | .absent => .exchanged gmailHashID
    | .malformed => .invalidStatePage
    | .obj uidOpt =>
        if uidOpt = some gmailHashID then .exchanged gmailHashID
        else .invalidStatePage

end GmailAuth

/-- C1: a callback whose `state` is present but unparsable, or whose
`state.userID` differs from the flow's identity, never reaches the code
exchange (no tokens are saved under any identity), and — whenever the
earlier `error`/`code` guards pass — is hard-rejected with the distinct
invalid-state error page; the mismatch is never silently corrected to
the flow's identity. -/
theorem claim_C1_state_validation (U : Str) (code error : Option Str)
    (state : StateParam)
    (hbad : state = .malformed ∨ ∃ uo, state = .obj uo ∧ uo ≠ some U) :
    (∀ id, GmailAuth.authCallback U code error state ≠ .exchanged id) ∧
    (strTruthy error = false → strTruthy code = true →
      GmailAuth.authCallback U code error state = .invalidStatePage) := by
  constructor
  · intro id
    unfold GmailAuth.authCallback
    rcases hbad with h1 | ⟨uo, h1, h2⟩
    · subst h1
      by_cases he : strTruthy error = true <;>
        by_cases hc : strTruthy code = true <;>
          simp [he, hc]
    · subst h1
      by_cases he : strTruthy error = true <;>
        by_cases hc : strTruthy code = true <;>
          simp [he, hc, h2]
  · intro he hc
    unfold GmailAuth.authCallback
    rcases hbad with h1 | ⟨uo, h1, h2⟩
    · subst h1; simp [he, hc]
    · subst h1; simp [he, hc, h2]

/-- Witness for C1: a callback for flow identity `user1` carrying
`state.userID = "user2"` is rejected with the invalid-state page and is
not an exchange for `user1`. -/
theorem claim_C1_state_validation_witness :
    GmailAuth.authCallback (js "user1") (some (js "c")) none
        (.obj (some (js "user2"))) = .invalidStatePage ∧
    GmailAuth.authCallback (js "user1") (some (js "c")) none
        (.obj (some (js "user2"))) ≠ .exchanged (js "user1") :=
  let h := claim_C1_state_validation (js "user1") (some (js "c")) none
    (.obj (some (js "user2")))
    (Or.inr ⟨some (js "user2"), rfl, by decide⟩)
  ⟨h.2 rfl (by decide), h.1 (js "user1")⟩

-- =====================================================================
-- Transport selector (`shouldUseSSE` and `GmailComplexityAnalyzer`,
-- part_000 lines 41-154)
-- =====================================================================

namespace Transport

/-- The request headers read by `shouldUseSSE` (`accept` and
`x-prefer-streaming`); the whole request object is optional. -/
structure Headers where
  accept : Option Str
  xPreferStreaming : Option Str

/-- The argument fields read by the gmail variable-tool heuristics;
absent fields model `undefined`. -/
structure GmailArgs where
  body : Option Str
  htmlBody : Option Str
  query : Option Str
  toRecipients : Option (List Str)
  ccRecipients : Option (List Str)
  bccRecipients : Option (List Str)
  messageIds : Option (List Str)
  maxResults : Option Int

/-- The analyzers' two-valued result. -/
inductive Complexity : Type
  | simple
  | complex
deriving DecidableEq

/-- `args?.maxResults || d`: JS `||` on a possibly-absent number. -/
def jsOrInt (o : Option Int) (d : Int) : Int :=
  match o with
  | some n => if n != 0 then n else d
  | none => d

/-- `TOOL_COMPLEXITY.simple` of the gmail server. -/
def simpleTools : List Str :=
  [js "authenticate_user", js "read_email", js "get_cache_stats",
   js "create_label", js "update_label", js "delete_label",
   js "get_or_create_label", js "modify_email", js "delete_email"]

/-- `TOOL_COMPLEXITY.complex` of the gmail server — empty in the source. -/
def complexTools : List Str := []

/-- `TOOL_COMPLEXITY.variable` of the gmail server. -/
def variableTools : List Str :=
  [js "send_email", js "draft_email", js "search_emails",
   js "list_email_labels", js "batch_modify_emails", js "batch_delete_emails"]

/-- `analyzeSendEmail`: total body length over 50000, more than 20
recipients, or a truthy `htmlBody` with body length over 20000. -/
def analyzeSendEmail (a : GmailArgs) : Complexity :=
  let bodyLength := (a.body.getD []).length + (a.htmlBody.getD []).length
  let recipients :=
    (a.toRecipients.getD []).length + (a.ccRecipients.getD []).length +
      (a.bccRecipients.getD []).length
  if bodyLength > 50000 then .complex
  else if recipients > 20 then .complex
  else if strTruthy a.htmlBody && decide (bodyLength > 20000) then .complex
  else .simple

/-- `analyzeSearchEmails`: `maxResults` over 100, query longer than 200,
or a `has:attachment` query with `maxResults` over 50. -/
def analyzeSearchEmails (a : GmailArgs) : Complexity :=
  let maxResults := jsOrInt a.maxResults 10
  let query := a.query.getD []
  if maxResults > 100 then .complex
  else if query.length > 200 then .complex
  else if strIncludes query (js "has:attachment") && decide (maxResults > 50) then .complex
  else .simple

/-- `analyzeBatchModifyEmails` (`messageIds` not an array counts as
empty; the second threshold subsumes the first, kept as written). -/
def analyzeBatchModifyEmails (a : GmailArgs) : Complexity :=
  let messageIds := a.messageIds.getD []
  if messageIds.length > 100 then .complex
  else if messageIds.length > 50 then .complex
  else .simple

/-- `analyzeBatchDeleteEmails`. -/
def analyzeBatchDeleteEmails (a : GmailArgs) : Complexity :=
  let messageIds := a.messageIds.getD []
  if messageIds.length > 50 then .complex
  else if messageIds.length > 25 then .complex
  else .simple

/-- The `switch (toolName)` over variable tools; `list_email_labels` has
no case and falls to the `default: 'simple'` arm. -/
def analyzeVariable (toolName : Str) (a : GmailArgs) : Complexity :=
  if toolName = js "send_email" ∨ toolName = js "draft_email" then
    analyzeSendEmail a
  else if toolName = js "search_emails" then analyzeSearchEmails a
  else if toolName = js "batch_modify_emails" then analyzeBatchModifyEmails a
  else if toolName = js "batch_delete_emails" then analyzeBatchDeleteEmails a
  else .simple

/-- `req?.headers.accept?.includes('text/event-stream')`. -/
def acceptWantsSSE (req : Option Headers) : Bool :=
  match req with
  | some h =>
      match h.accept with
      | some a => strIncludes a (js "text/event-stream")
      | none => false
  | none => false

/-- `req?.headers['x-prefer-streaming'] === v`. -/
def xPreferIs (req : Option Headers) (v : Str) : Bool :=
  match req with
  | some h => decide (h.xPreferStreaming = some v)
  | none => false

/-- `shouldUseSSE`, exactly as the sequence of early returns in the
source: accept-header, `x-prefer-streaming: true`, `x-prefer-streaming:
false`, simple list, complex list, variable list with per-tool analyzer,
then the unknown-tool default. -/
def shouldUseSSE (toolName : Str) (args : GmailArgs) (req : Option Headers) : Bool :=
  if acceptWantsSSE req then true
  else if xPreferIs req (js "true") then true
  else if xPreferIs req (js "false") then false
  else if toolName ∈ simpleTools then false
  else if toolName ∈ complexTools then true
  else if toolName ∈ variableTools then
    decide (analyzeVariable toolName args = .complex)
  else false

/-- Stage (1) of the claim's priority order: the explicit client
preference, if any. -/
def clientPreference (req : Option Headers) : Option Bool :=
  if acceptWantsSSE req then some true
  else if xPreferIs req (js "true") then some true
  else if xPreferIs req (js "false") then some false
  else none

/-- The classifier as the claim words it: an explicit client preference
wins outright; otherwise simple ⇒ unary, complex ⇒ streaming, variable ⇒
per-tool heuristic, unknown ⇒ unary. -/
def specClassify (toolName : Str) (args : GmailArgs) (req : Option Headers) : Bool :=
  match clientPreference req with
  | some b => b
  | none =>
      if toolName ∈ simpleTools then false
      else if toolName ∈ complexTools then true
      else if toolName ∈ variableTools then
        decide (analyzeVariable toolName args = .complex)
      else false

/-- Arguments object with every field absent. -/
def noArgs : GmailArgs := ⟨none, none, none, none, none, none, none, none⟩

end Transport

/-- C8: `shouldUseSSE` is a pure function of tool name, arguments and
headers that equals the claim's staged classifier on every input;
concretely, an explicit streaming header overrides the simple list, a
simple tool resolves unary, a variable tool follows its heuristic (21
recipients ⇒ streaming, plain send ⇒ unary), and an unknown tool
defaults to unary. -/
theorem claim_C8_transport_priority :
    (∀ t a r, Transport.shouldUseSSE t a r = Transport.specClassify t a r) ∧
    Transport.shouldUseSSE (js "read_email") Transport.noArgs
        (some { accept := some (js "text/event-stream"), xPreferStreaming := none }) =
      true ∧
    Transport.shouldUseSSE (js "read_email") Transport.noArgs none = false ∧
    Transport.shouldUseSSE (js "send_email")
        { Transport.noArgs with toRecipients := some (List.replicate 21 (js "a")) }
        none = true ∧
    Transport.shouldUseSSE (js "send_email") Transport.noArgs none = false ∧
    Transport.shouldUseSSE (js "mystery_tool") Transport.noArgs none = false := by
  refine ⟨?_, by decide, by decide, by decide, by decide, by decide⟩
  intro t a r
  unfold Transport.shouldUseSSE Transport.specClassify Transport.clientPreference
  by_cases h1 : Transport.acceptWantsSSE r = true <;>
    by_cases h2 : Transport.xPreferIs r (js "true") = true <;>
      by_cases h3 : Transport.xPreferIs r (js "false") = true <;>
        simp [h1, h2, h3]

-- =====================================================================
-- User-hash cache loading (`UserHashCache.loadCache` / `initialize`,
-- `userHashCache.ts` lines 44-90)
-- =====================================================================

namespace HashCacheInit

/-- A parsed JSON value (what `JSON.parse` can produce). -/
inductive JVal : Type
  | jnull
  | jbool (b : Bool)
  | jnum (n : Int)
  | jstr (s : Str)
  | jarr (elems : List JVal)
  | jobj (fields : List (Str × JVal))

/-- JS truthiness of a JSON value (arrays and objects are truthy). -/
def jsTruthyJ : JVal → Bool
  | .jnull => false
  | .jbool b => b
  | .jnum n => n != 0
  | .jstr s => !s.isEmpty
  | .jarr _ => true
  | .jobj _ => true

/-- Property read `v.name` on a parsed value; non-objects have no
properties (`undefined`). -/
def getField (v : JVal) (name : Str) : Option JVal :=
  match v with
  | .jobj fields => alookup fields name
  | _ => none

/-- Truthiness of `v.name` (`undefined` is falsy). -/
def truthyField (v : JVal) (name : Str) : Bool :=
  match getField v name with
  | some j => jsTruthyJ j
  | none => false

/-- The structural check `loadedCache.version && loadedCache.entries`. -/
def structOk (v : JVal) : Bool :=
  truthyField v (js "version") && truthyField v (js "entries")

/-- The on-disk states of the cache file distinguished by the code: the
read can fail with ENOENT or another error, `JSON.parse` can throw, or a
value is parsed. -/
inductive CacheFile : Type
  | missing
  | unreadable
  | unparsable
  | parsed (v : JVal)

/-- The constructor-set empty cache `{version: "1.0.0", entries: {}}`. -/
def defaultCache : JVal :=
  .jobj [(js "version", .jstr (js "1.0.0")), (js "entries", .jobj [])]

/-- The body of `loadCache`'s `try` block: read, parse, check structure,
throwing on any failure. -/
def readParseCheck : CacheFile → Except Str JVal
  | .missing => .error (js "ENOENT")
  | .unreadable => .error (js "EACCES")
  | .unparsable => .error (js "SyntaxError")
  | .parsed v =>
      if structOk v then .ok v else .error (js "Invalid cache structure")

/-- `loadCache`: the catch swallows every failure of the try block and
resets the in-memory cache to the empty table; the result is the value
of `this.cache` after the call, and an `Except` result models whether an
error escapes to the caller. -/
def loadCache (f : CacheFile) : Except Str JVal :=
  match readParseCheck f with
  | .ok v => .ok v
  | .error _ => .ok defaultCache

/-- `initialize`: wraps `loadCache` in a second try/catch that only logs;
a failure would leave the constructor-set empty cache in place. -/
def initCache (f : CacheFile) : Except Str JVal :=
  match loadCache f with
  | .ok v => .ok v
  | .error _ => .ok defaultCache

end HashCacheInit

/-- C10: cache initialization never propagates an error — for every
on-disk state it returns a cache value — and on every failing state
(missing file, unreadable file, unparsable JSON, failed structural
check) the in-memory cache is reset to the well-formed empty table
`{version: "1.0.0", entries: {}}`; a structurally valid parsed table is
kept as-is. -/
theorem claim_C10_init_never_fails :
    (∀ f, ∃ v, HashCacheInit.initCache f = .ok v) ∧
    (∀ f, (f = .missing ∨ f = .unreadable ∨ f = .unparsable ∨
        (∃ v, f = .parsed v ∧ HashCacheInit.structOk v = false)) →
      HashCacheInit.initCache f = .ok HashCacheInit.defaultCache) ∧
    (∀ v, HashCacheInit.structOk v = true →
      HashCacheInit.initCache (.parsed v) = .ok v) := by
  refine ⟨?_, ?_, ?_⟩
  · intro f
    cases f with
    | missing => exact ⟨_, rfl⟩
    | unreadable => exact ⟨_, rfl⟩
    | unparsable => exact ⟨_, rfl⟩
    | parsed v =>
        by_cases h : HashCacheInit.structOk v = true <;>
          simp [HashCacheInit.initCache, HashCacheInit.loadCache,
            HashCacheInit.readParseCheck, h]
  · intro f hf
    rcases hf with h | h | h | ⟨v, h, hv⟩ <;> subst h <;>
      simp [HashCacheInit.initCache, HashCacheInit.loadCache,
        HashCacheInit.readParseCheck]
    rw [hv]
    rfl
  · intro v hv
    simp [HashCacheInit.initCache, HashCacheInit.loadCache,
      HashCacheInit.readParseCheck, hv]

/-- Witness for C10: unparsable JSON resets to the empty table; the empty
table itself passes the structural check and is kept. -/
theorem claim_C10_init_never_fails_witness :
    HashCacheInit.initCache .unparsable = .ok HashCacheInit.defaultCache ∧
    HashCacheInit.initCache (.parsed HashCacheInit.defaultCache) =
      .ok HashCacheInit.defaultCache :=
  ⟨claim_C10_init_never_fails.2.1 .unparsable (Or.inr (Or.inr (Or.inl rfl))),
   claim_C10_init_never_fails.2.2 HashCacheInit.defaultCache (by decide)⟩
